import Mathlib

/-!
Shallow embedding of the snowball stock-valuation tracker (src/db.py and
src/app.py) for checking its natural-language specification.

Modelling conventions:
* A stock document is an association list `Doc = List (String × Val)` with
  first-binding-wins lookup, mirroring the schema-less store documents that
  `Stock(UserDict)` wraps.
* Python numbers are modelled as rationals `ℚ`; the only irrational
  computation, the tenth root inside `calc_expected_rate`, is modelled with
  `Real.rpow`, so expected-rate values live in `ℝ`.
* Python `int(x)` truncation toward zero is `truncQ`.
* Code that can raise (KeyError, AssertionError, ZeroDivisionError,
  StatisticsError, AttributeError, TypeError) is modelled in `Option`, with
  `none` standing for the raised exception propagating to the caller.
* `LAST_YEAR = datetime.now().year - 1` is evaluated once at module load;
  it is fixed here to the constant 2025 (its value never matters to the
  claims, only the symbol).
-/

namespace Snowball

/-- FScore value object: the 3-tuple of 0/1 indicators from db.py. -/
structure FScore where
  total_issued_stock : ℤ
  profitable : ℤ
  cfo : ℤ
deriving Repr, DecidableEq

/-- One daily snapshot appended to a stock's `records` sequence by
`save_record`.  The `date` is an abstract (midnight-truncated) day number;
`expected_rate` is real-valued because it is produced by `calc_expected_rate`. -/
structure DayRecord where
  date : ℤ
  buy : ℚ
  sell : ℚ
  bps : ℚ
  current_price : ℚ
  future_roe : ℚ
  roe : ℚ
  pbr : ℚ
  expected_rate : ℝ

/-- A field value of a stock document.  `null` models Python `None` stored in
a field (distinct from the field being absent). -/
inductive Val where
  | num (q : ℚ)
  | str (s : String)
  | boolV (b : Bool)
  | numList (l : List ℚ)
  | recList (l : List DayRecord)
  | null

/-- A raw stock document: an association list of field names to values,
first binding wins (Python dicts have unique keys, so well-formed documents
never shadow a key). -/
abbrev Doc := List (String × Val)

/-- Python truthiness of a field value (`if not stats`, `if not price`, ...). -/
def truthy : Val → Bool
  | Val.num q => q ≠ 0
  | Val.str s => s ≠ ""
  | Val.boolV b => b
  | Val.numList l => ¬ l.isEmpty
  | Val.recList l => ¬ l.isEmpty
  | Val.null => false

/-- Field lookup, `d[k]` / `d.get(k)`: first binding wins. -/
def getField : Doc → String → Option Val
  | [], _ => none
  | (k, v) :: rest, key => if k = key then some v else getField rest key

/-- Field update: replace the first binding of `k`, else append.  Models
assigning `d[k] = v` on a dict as well as one `$set` step of a Mongo update. -/
def setField : Doc → String → Val → Doc
  | [], k, v => [(k, v)]
  | (k', v') :: rest, k, v =>
    if k' = k then (k, v) :: rest else (k', v') :: setField rest k v

/-- Numeric `self.get(k, default)`.  Fields of numeric schema type always hold
`Val.num`; a value of any other shape falls back to the default. -/
def getNumD (d : Doc) (k : String) (dflt : ℚ) : ℚ :=
  match getField d k with
  | some (Val.num q) => q
  | _ => dflt

/-- String `self.get(k, default)`. -/
def getStrD (d : Doc) (k : String) (dflt : String) : String :=
  match getField d k with
  | some (Val.str s) => s
  | _ => dflt

/-- Series `self.get(k, default)` for the historical number sequences. -/
def getNumListD (d : Doc) (k : String) (dflt : List ℚ) : List ℚ :=
  match getField d k with
  | some (Val.numList l) => l
  | _ => dflt

/-- Boolean `self.get(k, default)` for the user flags. -/
def getBoolD (d : Doc) (k : String) (dflt : Bool) : Bool :=
  match getField d k with
  | some (Val.boolV b) => b
  | _ => dflt

/-- Snapshot-sequence `self.get('records', [])`. -/
def getRecListD (d : Doc) (k : String) (dflt : List DayRecord) : List DayRecord :=
  match getField d k with
  | some (Val.recList l) => l
  | _ => dflt

/-- Python `int(x)`: truncation toward zero. -/
def truncQ (q : ℚ) : ℤ := if 0 ≤ q then ⌊q⌋ else ⌈q⌉

/-- statistics.mean of a list of numbers (callers guard non-emptiness where
the source does; on `[]` the source raises StatisticsError, handled at each
use site). -/
def qmean (l : List ℚ) : ℚ := l.sum / (l.length : ℚ)

/-- Python `min` of a list, with a junk default for `[]` (guarded at use sites). -/
def qminD : List ℚ → ℚ → ℚ
  | [], dflt => dflt
  | x :: xs, _ => xs.foldl min x

/-- Python `max` of a list, with a junk default for `[]` (guarded at use sites). -/
def qmaxD : List ℚ → ℚ → ℚ
  | [], dflt => dflt
  | x :: xs, _ => xs.foldl max x

/-! Module constants of db.py. -/

def DIVIDEND_TAX_RATE : ℚ := 154 / 10

def FUTURE : ℕ := 10

def TARGET_RATE : ℚ := 15

/-- datetime.now().year - 1, evaluated once at module initialization. -/
def LAST_YEAR : ℤ := 2025

/-! Stock model: read-only accessors and metrics (db.py, class Stock). -/

/-- Stock.current_price: `self.get('current_price', 0)`. -/
def current_price (d : Doc) : ℚ := getNumD d ("current_price") 0

/-- The enumeration `[(year(idx), value) for idx, value in enumerate(stats)]`
with `year(idx) = LAST_YEAR - (last_year_index - idx)`, written as structural
recursion over the series with a running index. -/
def alignYears (lyi : ℚ) : ℕ → List ℚ → List (ℚ × ℚ)
  | _, [] => []
  | idx, v :: rest =>
    ((LAST_YEAR : ℚ) - (lyi - (idx : ℚ)), v) :: alignYears lyi (idx + 1) rest

/-- Stock.year_stat: aligns the named historical series with calendar years.
`none` models the AssertionError raised when `last_year_index` is absent (or
the TypeError from year arithmetic on a non-numeric `last_year_index`), and
the TypeError from enumerating a truthy non-list value. -/
def year_stat (d : Doc) (stat : String) (exclude_future : Bool) :
    Option (List (ℚ × ℚ)) :=
  match getField d stat with
  | none => some [(0, 0)]
  | some v =>
    if ¬ truthy v then some [(0, 0)]
    else
      match v with
      | Val.numList stats =>
        match getField d ("last_year_index") with
        | some (Val.num lyi) =>
          some ((alignYears lyi 0 stats).filter fun p =>
            (!exclude_future) || decide (p.1 ≤ (LAST_YEAR : ℚ)))
        | _ => none
      | _ => none

/-- Stock.roes: `year_stat('ROEs')` (no future exclusion). -/
def roes (d : Doc) : Option (List (ℚ × ℚ)) := year_stat d ("ROEs") false

/-- Stock.pbrs: `year_stat('PBRs')`. -/
def pbrs (d : Doc) : Option (List (ℚ × ℚ)) := year_stat d ("PBRs") false

/-- Stock.pers: `year_stat('PERs')`. -/
def pers (d : Doc) : Option (List (ℚ × ℚ)) := year_stat d ("PERs") false

/-- Stock.epss: `year_stat('EPSs')`. -/
def epss (d : Doc) : Option (List (ℚ × ℚ)) := year_stat d ("EPSs") false

/-- Stock.countable_roes: the raw ROEs series filtered to truthy entries. -/
def countable_roes (d : Doc) : List ℚ :=
  (getNumListD d ("ROEs") []).filter fun roe => roe ≠ 0

/-- Stock.low_pbr: min of the positive historical PBR values; the ValueError
of `min([])` is caught and yields 0.  The AssertionError from `year_stat` is
not caught (only ValueError is), hence `Option`. -/
def low_pbr (d : Doc) : Option ℚ := do
  let ys ← year_stat d ("PBRs") true
  let pos := (ys.map Prod.snd).filter fun x => 0 < x
  pure (qminD pos 0)

/-- Stock.high_pbr: max of the positive historical PBR values, 0 if none. -/
def high_pbr (d : Doc) : Option ℚ := do
  let ys ← year_stat d ("PBRs") true
  let pos := (ys.map Prod.snd).filter fun x => 0 < x
  pure (qmaxD pos 0)

/-- Stock.mid_pbr: `(low_pbr + self.get('pbr')) / 2`.  When the `pbr` field is
absent, `self.get('pbr')` is None and the addition raises TypeError: `none`. -/
def mid_pbr (d : Doc) : Option ℚ :=
  match getField d ("pbr") with
  | some (Val.num p) => do
    let lp ← low_pbr d
    pure ((lp + p) / 2)
  | _ => none

/-- Stock.adjusted_eps: weighted mean of the three most recent historical EPS
values, truncated; 0 when fewer than 3 historical entries. -/
def adjusted_eps (d : Doc) : Option ℤ := do
  let ys ← year_stat d ("EPSs") true
  let past := ys.map Prod.snd
  if past.length < 3 then pure 0
  else
    match past.reverse with
    | e1 :: e2 :: e3 :: _ => pure (truncQ ((e1 * 3 + e2 * 2 + e3) / 6))
    | _ => pure 0

/-- Stock.mid_roe: `mean([mean(ROEs), min(ROEs)])` over the countable ROEs
when there are more than 2 of them, else 0. -/
def mid_roe (d : Doc) : ℚ :=
  let R := countable_roes d
  if R.length > 2 then (qmean R + qminD R 0) / 2 else 0

/-- Stock.eps_growth: mean of consecutive EPS ratios as a percent.  A zero
denominator raises ZeroDivisionError which the source catches to 0; fewer than
two entries make `mean([])` raise StatisticsError, which is NOT caught: `none`. -/
def eps_growth (d : Doc) : Option ℚ :=
  let EPSs := getNumListD d ("EPSs") [0, 0]
  let pairs := EPSs.zip EPSs.tail
  if pairs.any fun p => p.1 = 0 then some 0
  else if pairs.isEmpty then none
  else some (qmean (pairs.map fun p => p.2 / p.1 - 1) * 100)

/-- Stock.has_note: the `note` field is non-empty. -/
def has_note (d : Doc) : Bool := (getStrD d ("note") "").length > 0

/-- Stock.fscore: the 3 indicators for one fiscal year.  `year_stat` on NPs
and CFOs can raise, hence `Option`. -/
def fscore (d : Doc) (year : ℚ) : Option FScore := do
  let TIs := getNumListD d ("TIs") []
  let total_issued_stock : ℤ :=
    if TIs.length > 2 ∧ TIs.dedup.length ≤ 1 then 1 else 0
  let NPs ← year_stat d ("NPs") false
  let year_profit := (NPs.filter fun p => p.1 = year).map Prod.snd
  let profitable : ℤ :=
    if year_profit.length > 0 ∧ 0 < year_profit.headD 0 then 1 else 0
  let CFOs ← year_stat d ("CFOs") false
  let year_cfo := (CFOs.filter fun p => p.1 = year).map Prod.snd
  let cfo : ℤ :=
    if year_cfo.length > 0 ∧ 0 < year_cfo.headD 0 then 1 else 0
  pure ⟨total_issued_stock, profitable, cfo⟩

/-- Stock.fscores: `(year, fscore(year))` for every NP year-stat entry. -/
def fscores (d : Doc) : Option (List (ℚ × FScore)) := do
  let NPs ← year_stat d ("NPs") false
  NPs.mapM fun np => do
    let f ← fscore d np.1
    pure (np.1, f)

/-- Stock.latest_fscore: the indicator sum of the last fscores entry. -/
def latest_fscore (d : Doc) : Option ℤ := do
  let fs ← fscores d
  match fs.getLast? with
  | some p => pure (p.2.total_issued_stock + p.2.profitable + p.2.cfo)
  | none => none

/-- Stock.mean_per: mean of the raw PERs series when longer than 2, else 0. -/
def mean_per (d : Doc) : ℚ :=
  let PERs := getNumListD d ("PERs") []
  if PERs.length > 2 then qmean PERs else 0

/-- Stock.dividend_tax_adjust: `dividend_rate × (15.40 / 100)`. -/
def dividend_tax_adjust (d : Doc) : ℚ :=
  getNumD d ("dividend_rate") 0 * (DIVIDEND_TAX_RATE / 100)

/-- Stock.last_four_years_roe: truthy year-stat ROE values for calendar years
in `[LAST_YEAR - 3, LAST_YEAR]`. -/
def last_four_years_roe (d : Doc) : Option (List ℚ) := do
  let ys ← year_stat d ("ROEs") false
  pure ((ys.filter fun p =>
    p.2 ≠ 0 ∧ (LAST_YEAR : ℚ) - 3 ≤ p.1 ∧ p.1 ≤ (LAST_YEAR : ℚ)).map Prod.snd)

/-- Stock.calculated_roe_count. -/
def calculated_roe_count (d : Doc) : Option ℕ :=
  (last_four_years_roe d).map List.length

/-- Stock.calculable_pbr_count: count of positive non-future PBR entries. -/
def calculable_pbr_count (d : Doc) : Option ℕ := do
  let ys ← year_stat d ("PBRs") true
  pure (ys.filter fun p => 0 < p.2).length

/-- Stock.mean_roe: mean of `last_four_years_roe`, 0 when it is empty. -/
def mean_roe (d : Doc) : Option ℚ := do
  let l ← last_four_years_roe d
  pure (if l.isEmpty then 0 else qmean l)

/-- Stock.future_roe: `mean_roe - dividend_tax_adjust`. -/
def future_roe (d : Doc) : Option ℚ := do
  let mr ← mean_roe d
  pure (mr - dividend_tax_adjust d)

/-- Stock.calculable: `bps > 0 and (adjusted_future_roe or future_roe) > 0`,
with Python's short-circuiting: when `bps ≤ 0`, or when the adjusted override
is non-zero (truthy), `future_roe` is never evaluated, so its possible
AssertionError does not fire. -/
def calculable (d : Doc) : Option Bool :=
  if ¬ (0 < getNumD d ("bps") 0) then some false
  else
    let adj := getNumD d ("adjusted_future_roe") 0
    if adj ≠ 0 then some (decide (0 < adj))
    else do
      let fr ← future_roe d
      pure (decide (0 < fr))

/-- Stock.calc_future_bps: 0 when not calculable, else
`int(bps * (1 + roe/100) ** future)` with the adjusted override taking
precedence when non-zero. -/
def calc_future_bps (d : Doc) (future : ℕ) : Option ℤ := do
  let c ← calculable d
  if ¬ c then pure 0
  else
    let bps := getNumD d ("bps") 0
    let adj := getNumD d ("adjusted_future_roe") 0
    let fr ← if adj ≠ 0 then some adj else future_roe d
    pure (truncQ (bps * (1 + 1 * fr / 100) ^ future))

/-- Stock.future_bps: `calc_future_bps(FUTURE)`. -/
def future_bps (d : Doc) : Option ℤ := calc_future_bps d FUTURE

/-- Stock.invest_price: `int(future_bps / (1 + TARGET_RATE/100) ** FUTURE)`. -/
def invest_price (d : Doc) : Option ℤ := do
  let fb ← calc_future_bps d FUTURE
  pure (truncQ ((fb : ℚ) / (1 + 1 * TARGET_RATE / 100) ^ FUTURE))

/-- Stock.calc_future_price_low_pbr. -/
def calc_future_price_low_pbr (d : Doc) (future : ℕ) : Option ℤ := do
  let b ← calc_future_bps d future
  let lp ← low_pbr d
  pure (truncQ ((b : ℚ) * lp))

/-- Stock.calc_future_price_high_pbr. -/
def calc_future_price_high_pbr (d : Doc) (future : ℕ) : Option ℤ := do
  let b ← calc_future_bps d future
  let hp ← high_pbr d
  pure (truncQ ((b : ℚ) * hp))

/-- Stock.calc_future_price_current_pbr: uses `self['pbr']`, whose absence
raises KeyError. -/
def calc_future_price_current_pbr (d : Doc) (future : ℕ) : Option ℤ :=
  match getField d ("pbr") with
  | some (Val.num p) => do
    let b ← calc_future_bps d future
    pure (truncQ ((b : ℚ) * p))
  | _ => none

/-- Stock.calc_future_price_low_current_mid_pbr. -/
def calc_future_price_low_current_mid_pbr (d : Doc) (future : ℕ) : Option ℤ := do
  let b ← calc_future_bps d future
  let mp ← mid_pbr d
  pure (truncQ ((b : ℚ) * mp))

/-- Stock.calc_future_price_adjusted_future_pbr. -/
def calc_future_price_adjusted_future_pbr (d : Doc) (future : ℕ) : Option ℤ := do
  let b ← calc_future_bps d future
  pure (truncQ ((b : ℚ) * getNumD d ("adjusted_future_pbr") 0))

/-- Stock.intrinsic_value: `int((bps + adjusted_eps * 10) / 2)`. -/
def intrinsic_value (d : Doc) : Option ℤ := do
  let ae ← adjusted_eps d
  pure (truncQ ((getNumD d ("bps") 0 + (ae : ℚ) * 10) / 2))

/-- Stock.intrinsic_discount_rate: `(intrinsic_value / current_price ** (1.0/1) - 1) * 100`.
The exponent is a no-op (`x ** 1.0 = x`); a zero price raises
ZeroDivisionError, modelled as `none`. -/
def intrinsic_discount_rate (d : Doc) : Option ℚ := do
  let iv ← intrinsic_value d
  let cp := current_price d
  if cp = 0 then none else pure (((iv : ℚ) / cp - 1) * 100)

/-- Stock.peg_current_per: `per / eps_growth` when the growth is non-zero. -/
def peg_current_per (d : Doc) : Option ℚ := do
  let eg ← eps_growth d
  pure (if eg ≠ 0 then getNumD d ("per") 0 / eg else 0)

/-- Stock.peg_mean_per: `mean_per / eps_growth` when the growth is non-zero. -/
def peg_mean_per (d : Doc) : Option ℚ := do
  let eg ← eps_growth d
  pure (if eg ≠ 0 then mean_per d / eg else 0)

/-- Stock.roe_max_diff: spread of the countable ROEs when more than 2, else 0. -/
def roe_max_diff (d : Doc) : ℚ :=
  let R := countable_roes d
  if R.length > 2 then qmaxD R 0 - qminD R 0 else 0

/-- Stock.ten_year_prices: iterated 15 percent compounding from `my_price`,
years 1 through 10 (the growth is applied iteratively, as in the source loop);
empty when `my_price` is unset or zero. -/
def ten_year_prices (d : Doc) : List (ℕ × ℚ) :=
  let price := getNumD d ("my_price") 0
  if price = 0 then []
  else
    ((List.range 10).foldl
      (fun (acc : ℚ × List (ℕ × ℚ)) i =>
        let p := acc.1 + acc.1 * (15 / 100 : ℚ)
        (p, acc.2 ++ [(i + 1, p)]))
      (price, [])).2

/-- Stock.calc_expected_rate: `((calc_bps(future) / price) ** (1.0/future) - 1) * 100`.
A falsy (absent or zero) supplied price is replaced by `current_price`; a zero
effective price raises ZeroDivisionError (`none`), and so would `1.0/future`
for `future = 0` (never reached by the source, which always passes 10).
The fractional power is modelled by `Real.rpow`; for a negative ratio Python 3
would produce a complex number on which every downstream comparison raises,
a corner not reachable with non-negative prices. -/
noncomputable def calc_expected_rate (d : Doc) (calc_bps : ℕ → Option ℤ)
    (future : ℕ) (price? : Option ℚ) : Option ℝ := do
  let price := match price? with
    | some p => if p = 0 then current_price d else p
    | none => current_price d
  let b ← calc_bps future
  if price = 0 then none
  else if future = 0 then none
  else pure ((((b : ℝ) / (price : ℝ)) ^ ((1 : ℝ) / (future : ℝ)) - 1) * 100)

/-- Stock.expected_rate: `calc_expected_rate(calc_future_bps, FUTURE)` — the
primary ranking and filtering metric. -/
noncomputable def expected_rate (d : Doc) : Option ℝ :=
  calc_expected_rate d (calc_future_bps d) FUTURE none

/-- Stock.expected_rate_by_price. -/
noncomputable def expected_rate_by_price (d : Doc) (price : ℚ) : Option ℝ :=
  calc_expected_rate d (calc_future_bps d) FUTURE (some price)

/-- Stock.expected_rate_by_current_pbr. -/
noncomputable def expected_rate_by_current_pbr (d : Doc) : Option ℝ :=
  calc_expected_rate d (calc_future_price_current_pbr d) FUTURE none

/-- Stock.expected_rate_by_low_pbr. -/
noncomputable def expected_rate_by_low_pbr (d : Doc) : Option ℝ :=
  calc_expected_rate d (calc_future_price_low_pbr d) FUTURE none

/-- Stock.expected_rate_by_mid_pbr. -/
noncomputable def expected_rate_by_mid_pbr (d : Doc) : Option ℝ :=
  calc_expected_rate d (calc_future_price_low_current_mid_pbr d) FUTURE none

/-- Stock.expected_rate_by_adjusted_future_pbr. -/
noncomputable def expected_rate_by_adjusted_future_pbr (d : Doc) : Option ℝ :=
  calc_expected_rate d (calc_future_price_adjusted_future_pbr d) FUTURE none

/-- Stock.price_arrow.  When `price_diff` is absent, `None == 0` is False and
`None > 0` then raises TypeError: `none`. -/
def price_arrow (d : Doc) : Option String :=
  match getField d ("price_diff") with
  | some (Val.num q) => some (if q = 0 then ("") else if 0 < q then ("▲") else ("▼"))
  | _ => none

/-- Stock.price_color, same absence behaviour as price_arrow. -/
def price_color (d : Doc) : Option String :=
  match getField d ("price_diff") with
  | some (Val.num q) =>
    some (if q = 0 then ("black") else if 0 < q then ("red") else ("blue"))
  | _ => none

/-- Stock.price_sign: `'+' if self.get('price_diff') > 0 else ''`; the
comparison raises TypeError when the field is absent. -/
def price_sign (d : Doc) : Option String :=
  match getField d ("price_diff") with
  | some (Val.num q) => some (if 0 < q then ("+") else (""))
  | _ => none

/-- Stock.financial_statements_url, built from `self['code']` (KeyError when
absent). -/
def financial_statements_url (d : Doc) : Option String :=
  match getField d ("code") with
  | some (Val.str c) =>
    some ("http://companyinfo.stock.naver.com/v1/company/ajax/cF1001.aspx?cmp_cd="
      ++ c ++ "&fin_typ=0&freq_typ=Y")
  | _ => none

/-! Sort-key resolution for the list operation (db.py, attr_or_key_getter).
`sorted(key=...)` compares the per-record keys; a key is a number, a string,
or some other Python object (a list, a dict, a bound method, ...).  Python
booleans compare as the integers 0 and 1.  Cross-type comparisons and
comparisons of `other` keys raise TypeError in Python; `keyLe` totalises them
by constructor tag so that sortedness can be stated — no claim exercises a
heterogeneous or non-scalar key. -/

/-- A resolved sort key. -/
inductive SKey where
  | num (x : ℝ)
  | str (s : String)
  | other

/-- Constructor tag used to totalise cross-type comparisons. -/
def SKey.tag : SKey → ℕ
  | SKey.num _ => 0
  | SKey.str _ => 1
  | SKey.other => 2

/-- Comparison of sort keys: numeric and string keys compare within their
type; anything else is ordered by tag (where Python would raise TypeError). -/
def keyLe : SKey → SKey → Prop
  | SKey.num a, SKey.num b => a ≤ b
  | SKey.str a, SKey.str b => a ≤ b
  | a, b => a.tag ≤ b.tag

/-- A raw field value used as a sort key (`obj.get(name, 0)` fallback branch).
Numbers and strings are ordered scalars; stored booleans compare as 0/1;
lists and None are `other`. -/
def valKey : Val → SKey
  | Val.num q => SKey.num (q : ℝ)
  | Val.str s => SKey.str s
  | Val.boolV b => SKey.num (if b then 1 else 0)
  | Val.numList _ => SKey.other
  | Val.recList _ => SKey.other
  | Val.null => SKey.other

/-- The attributes of class Stock (and of its UserDict base) that `getattr`
finds, as sort-key producers: each `@property` evaluates (possibly raising:
`none`), and plain methods resolve to bound-method objects (`other`).
Dunder attributes are not modelled.  Entries appear in source order. -/
noncomputable def stockAttrs : List (String × (Doc → Option SKey)) := [
  (("object_id"), fun d => (getField d ("_id")).map valKey),
  (("current_price"), fun d => some (SKey.num ((current_price d : ℚ) : ℝ))),
  (("price_arrow"), fun d => (price_arrow d).map SKey.str),
  (("price_color"), fun d => (price_color d).map SKey.str),
  (("price_sign"), fun d => (price_sign d).map SKey.str),
  (("financial_statements_url"), fun d => (financial_statements_url d).map SKey.str),
  (("roes"), fun d => (roes d).map fun _ => SKey.other),
  (("pbrs"), fun d => (pbrs d).map fun _ => SKey.other),
  (("pers"), fun d => (pers d).map fun _ => SKey.other),
  (("epss"), fun d => (epss d).map fun _ => SKey.other),
  (("countable_roes"), fun _ => some SKey.other),
  (("low_pbr"), fun d => (low_pbr d).map fun q => SKey.num (q : ℝ)),
  (("high_pbr"), fun d => (high_pbr d).map fun q => SKey.num (q : ℝ)),
  (("mid_pbr"), fun d => (mid_pbr d).map fun q => SKey.num (q : ℝ)),
  (("adjusted_eps"), fun d => (adjusted_eps d).map fun z => SKey.num (z : ℝ)),
  (("mid_roe"), fun d => some (SKey.num ((mid_roe d : ℚ) : ℝ))),
  (("eps_growth"), fun d => (eps_growth d).map fun q => SKey.num (q : ℝ)),
  (("has_note"), fun d => some (SKey.num (if has_note d then 1 else 0))),
  (("latest_fscore"), fun d => (latest_fscore d).map fun z => SKey.num (z : ℝ)),
  (("fscores"), fun d => (fscores d).map fun _ => SKey.other),
  (("mean_per"), fun d => some (SKey.num ((mean_per d : ℚ) : ℝ))),
  (("dividend_tax_adjust"), fun d => some (SKey.num ((dividend_tax_adjust d : ℚ) : ℝ))),
  (("last_four_years_roe"), fun d => (last_four_years_roe d).map fun _ => SKey.other),
  (("calculated_roe_count"), fun d => (calculated_roe_count d).map fun n => SKey.num (n : ℝ)),
  (("calculable_pbr_count"), fun d => (calculable_pbr_count d).map fun n => SKey.num (n : ℝ)),
  (("mean_roe"), fun d => (mean_roe d).map fun q => SKey.num (q : ℝ)),
  (("future_roe"), fun d => (future_roe d).map fun q => SKey.num (q : ℝ)),
  (("expected_rate"), fun d => (expected_rate d).map SKey.num),
  (("invest_price"), fun d => (invest_price d).map fun z => SKey.num (z : ℝ)),
  (("expected_rate_by_current_pbr"), fun d => (expected_rate_by_current_pbr d).map SKey.num),
  (("expected_rate_by_low_pbr"), fun d => (expected_rate_by_low_pbr d).map SKey.num),
  (("expected_rate_by_mid_pbr"), fun d => (expected_rate_by_mid_pbr d).map SKey.num),
  (("expected_rate_by_adjusted_future_pbr"), fun d => (expected_rate_by_adjusted_future_pbr d).map SKey.num),
  (("intrinsic_value"), fun d => (intrinsic_value d).map fun z => SKey.num (z : ℝ)),
  (("intrinsic_discount_rate"), fun d => (intrinsic_discount_rate d).map fun q => SKey.num (q : ℝ)),
  (("peg_current_per"), fun d => (peg_current_per d).map fun q => SKey.num (q : ℝ)),
  (("peg_mean_per"), fun d => (peg_mean_per d).map fun q => SKey.num (q : ℝ)),
  (("roe_max_diff"), fun d => some (SKey.num ((roe_max_diff d : ℚ) : ℝ))),
  (("QROEs"), fun d => (getField d ("QROEs")).map fun _ => SKey.other),
  (("calculable"), fun d => (calculable d).map fun b => SKey.num (if b then 1 else 0)),
  (("future_bps"), fun d => (future_bps d).map fun z => SKey.num (z : ℝ)),
  (("expected_rate_by_price"), fun _ => some SKey.other),
  (("calc_future_bps"), fun _ => some SKey.other),
  (("calc_future_price_low_pbr"), fun _ => some SKey.other),
  (("calc_future_price_high_pbr"), fun _ => some SKey.other),
  (("calc_future_price_current_pbr"), fun _ => some SKey.other),
  (("calc_future_price_low_current_mid_pbr"), fun _ => some SKey.other),
  (("calc_future_price_adjusted_future_pbr"), fun _ => some SKey.other),
  (("calc_expected_rate"), fun _ => some SKey.other),
  (("ten_year_prices"), fun _ => some SKey.other),
  (("fscore"), fun _ => some SKey.other),
  (("year_stat"), fun _ => some SKey.other),
  (("save_record"), fun _ => some SKey.other),
  (("data"), fun _ => some SKey.other),
  (("get"), fun _ => some SKey.other),
  (("keys"), fun _ => some SKey.other),
  (("items"), fun _ => some SKey.other),
  (("values"), fun _ => some SKey.other),
  (("pop"), fun _ => some SKey.other),
  (("popitem"), fun _ => some SKey.other),
  (("clear"), fun _ => some SKey.other),
  (("update"), fun _ => some SKey.other),
  (("setdefault"), fun _ => some SKey.other),
  (("copy"), fun _ => some SKey.other)]

/-- attr_or_key_getter(name, obj): try the named attribute on the model
(getattr — a property evaluates, possibly raising), and on AttributeError
fall back to the raw field value with default 0. -/
noncomputable def attr_or_key_getter (name : String) (d : Doc) : Option SKey :=
  match stockAttrs.lookup name with
  | some f => f d
  | none => some (valKey ((getField d name).getD (Val.num 0)))

/-! Persistence access layer (db.py, module-level functions).  The document
store is modelled as the list of documents in collection order; Mongo
`find_one` / `update_one` act on the first matching document. -/

/-- Does this document's `code` field equal the given code?  Codes are URL
path segments and ingestion inputs, hence strings throughout the system. -/
def codeMatches (d : Doc) (code : String) : Bool :=
  match getField d ("code") with
  | some (Val.str s) => s == code
  | _ => false

/-- Mongo `find_one({'code': code})`: the first matching document. -/
def find_one_code (store : List Doc) (code : String) : Option Doc :=
  store.find? fun d => codeMatches d code

/-- db.stock_by_code: `Stock(db.stocks.find_one({'code': code}))`.  When no
document matches, `find_one` returns None and `Stock(None)` — via
`UserDict.__init__` — constructs an EMPTY model instance (`[]` here), it does
not raise. -/
def stock_by_code (store : List Doc) (code : String) : Doc :=
  (find_one_code store code).getD []

/-- One Mongo `$set` merge: each given field replaces or is added to the
document; fields not named are untouched. -/
def mergeDoc (d : Doc) (fields : Doc) : Doc :=
  fields.foldl (fun acc kv => setField acc kv.1 kv.2) d

/-- Mongo `update_one({'code': code}, {'$set': fields})`: merge into the first
matching document, leave every other document unchanged. -/
def update_first_code (store : List Doc) (code : String) (fields : Doc) :
    List Doc :=
  match store with
  | [] => []
  | d :: rest =>
    if codeMatches d code then mergeDoc d fields :: rest
    else d :: update_first_code rest code fields

/-- db.save_stock: upsert by code.  `stock['code']` raises KeyError when the
field is absent (`none`); if a document with that code exists the given fields
are merged into it, otherwise the document is inserted; the result is the
record freshly reloaded by code. -/
def save_stock (store : List Doc) (stock : Doc) : Option (List Doc × Doc) :=
  match getField stock ("code") with
  | some (Val.str c) =>
    let store' :=
      match find_one_code store c with
      | some _ => update_first_code store c stock
      | none => store ++ [stock]
    some (store', stock_by_code store' c)
  | _ => none

/-- Resolved sort key of a record for a given `order_by` (total helper over
the fallible resolver; `all_stocks` only sorts once every key is `some`). -/
noncomputable def sortKey (order_by : String) (d : Doc) : SKey :=
  (attr_or_key_getter order_by d).getD SKey.other

/-- The comparison `sorted(..., key=partial(attr_or_key_getter, order_by),
reverse=(ordering != 'asc'))` sorts with: ascending keys when
`ordering == 'asc'`, descending keys otherwise. -/
noncomputable def docRel (order_by ordering : String) (a b : Doc) : Prop :=
  if ordering = "asc" then keyLe (sortKey order_by a) (sortKey order_by b)
  else keyLe (sortKey order_by b) (sortKey order_by a)

noncomputable instance docRelDecidable (order_by ordering : String) :
    DecidableRel (docRel order_by ordering) := Classical.decRel _

/-- The fetch step of db.all_stocks:
`db.stocks.find(find) if find else db.stocks.find()`, with the Mongo query
abstracted to a predicate on documents. -/
def fetchDocs (store : List Doc) (find : Option (Doc → Bool)) : List Doc :=
  match find with
  | some f => store.filter f
  | none => store

/-- The survivors of the expected-rate post-filter of db.all_stocks:
`[Stock(s) for s in dicts if filter_func(s)]` with `filter_func` comparing
the expected rate against 0 (strictly positive when `filter_bad`, strictly
negative otherwise). -/
noncomputable def goodBadFilter (dicts : List Doc) (filter_bad : Bool) :
    List Doc :=
  dicts.filter fun s =>
    if filter_bad then decide (0 < (expected_rate s).getD 0)
    else decide ((expected_rate s).getD 0 < 0)

/-- db.all_stocks(order_by='title', ordering='asc', find=None, filter_bad=True):
fetch (optionally filtered by the store query), evaluate `expected_rate` on
every fetched record while filtering (any raise aborts the whole call:
`none`), keep the strictly-positive records when `filter_bad` else the
strictly-negative ones, and sort by the resolved key (key resolution is also
evaluated per surviving record inside `sorted`, and a raise aborts the call). -/
noncomputable def all_stocks (store : List Doc) (order_by : String)
    (ordering : String) (find : Option (Doc → Bool)) (filter_bad : Bool) :
    Option (List Doc) :=
  if (fetchDocs store find).all fun s => (expected_rate s).isSome then
    if (goodBadFilter (fetchDocs store find) filter_bad).all
        fun s => (attr_or_key_getter order_by s).isSome then
      some (List.insertionSort (docRel order_by ordering)
        (goodBadFilter (fetchDocs store find) filter_bad))
    else none
  else none

/-- The snapshot dict built by Stock.save_record from the current record
state (evaluating `future_roe` and `expected_rate` can raise: `none`). -/
noncomputable def mkDayRecord (d : Doc) (today : ℤ) : Option DayRecord := do
  let fr ← future_roe d
  let er ← expected_rate d
  pure { date := today, buy := 0, sell := 0, bps := getNumD d ("bps") 0,
         current_price := current_price d, future_roe := fr,
         roe := getNumD d ("roe") 0, pbr := getNumD d ("pbr") 0,
         expected_rate := er }

/-- Stock.save_record: a silent no-op unless the record is starred or owned;
otherwise append today's snapshot to `records`, replacing the last entry in
place when it is already dated today, and persist `{code, records}` through
the partial-merge upsert (no other field is written).  `today` is the
midnight-truncated current date. -/
noncomputable def save_record (store : List Doc) (d : Doc) (today : ℤ) :
    Option (List Doc) :=
  let starred := truthy ((getField d ("starred")).getD (Val.boolV false))
  let owned := truthy ((getField d ("owned")).getD (Val.boolV false))
  if ¬ starred ∧ ¬ owned then some store
  else do
    let snap ← mkDayRecord d today
    let records := getRecListD d ("records") []
    let records' :=
      match records.getLast? with
      | some last =>
        if last.date = today then records.dropLast ++ [snap]
        else records ++ [snap]
      | none => records ++ [snap]
    let res ← save_stock store
      [(("code"), (getField d ("code")).getD Val.null),
       (("records"), Val.recList records')]
    pure res.1

/-! Web application layer (app.py). -/

/-- The in-memory mutation performed by the `/stock/<code>/<status>/<on>`
route handler on the fetched record: set the field named by `status` to
`on == 'on'`; if the field just set to True is `owned`, clear `starred`, and
if it is `starred`, clear `owned`. -/
def stock_status_update (stock : Doc) (status : String) (onArg : String) : Doc :=
  let s := setField stock status (Val.boolV (onArg == ("on")))
  if status == ("owned") && onArg == ("on") then
    setField s ("starred") (Val.boolV false)
  else if status == ("starred") && onArg == ("on") then
    setField s ("owned") (Val.boolV false)
  else s

/-- The full flag-toggle route: fetch by code, mutate, persist, redirect to
the detail view. -/
def stock_status (store : List Doc) (code status onArg : String) :
    Option (List Doc × String) := do
  let stock := stock_by_code store code
  let res ← save_stock store (stock_status_update stock status onArg)
  pure (res.1, ("stock"))

/-- The GET `/stocks/fill` route (app.py, stocks_fill_snowball_stats):
`[s.fill_snowball_stat() for s in db.all_stocks()]` then redirect to the list
view.  The comprehension looks up the attribute `fill_snowball_stat` on each
listed stock; class Stock defines no such attribute (its snapshot operation is
named `save_record`), so on any non-empty listing the first lookup raises
AttributeError (`none`).  With an empty listing no lookup happens and the
route redirects. -/
noncomputable def stocks_fill_snowball_stats (store : List Doc) :
    Option String := do
  let stocks ← all_stocks store ("title") ("asc") none true
  if stocks.isEmpty then pure ("stocks")
  else if (stockAttrs.lookup ("fill_snowball_stat")).isSome then pure ("stocks")
  else none

/-! Helper lemmas about the association-list document operations. -/

lemma getField_setField_self (d : Doc) (k : String) (v : Val) :
    getField (setField d k v) k = some v := by
  induction d with
  | nil => simp [setField, getField]
  | cons kv rest ih =>
    obtain ⟨k', v'⟩ := kv
    simp only [setField]
    by_cases h : k' = k
    . simp [h, getField]
    . simp [h, getField, ih]

lemma getField_setField_ne (d : Doc) (k' k : String) (v : Val) (h : k' ≠ k) :
    getField (setField d k' v) k = getField d k := by
  induction d with
  | nil => simp [setField, getField, h]
  | cons kv rest ih =>
    obtain ⟨k0, v0⟩ := kv
    by_cases h0 : k0 = k'
    . subst h0
      simp [setField, getField, h, Ne.symm h]
    . simp [setField, getField, h0, ih]

lemma getField_eq_none_of_not_mem (fields : Doc) (k : String)
    (h : k ∉ fields.map Prod.fst) :
    getField fields k = none := by
  induction fields with
  | nil => simp [getField]
  | cons kv rest ih =>
    obtain ⟨k0, v0⟩ := kv
    simp only [List.map_cons, List.mem_cons] at h
    push_neg at h
    have hne : ¬ k0 = k := by
      intro hh
      exact h.1 hh.symm
    simp [getField, hne, ih h.2]

lemma getField_mergeDoc_of_none (d fields : Doc) (k : String)
    (h : getField fields k = none) :
    getField (mergeDoc d fields) k = getField d k := by
  induction fields generalizing d with
  | nil => simp [mergeDoc]
  | cons kv rest ih =>
    obtain ⟨k0, v0⟩ := kv
    simp only [getField] at h
    by_cases h0 : k0 = k
    . simp [h0] at h
    . simp only [h0, if_false] at h
      show getField (mergeDoc (setField d k0 v0) rest) k = getField d k
      rw [ih _ h, getField_setField_ne _ _ _ _ h0]

lemma getField_mergeDoc_of_some (d fields : Doc) (k : String) (v : Val)
    (hnd : (fields.map Prod.fst).Nodup)
    (h : getField fields k = some v) :
    getField (mergeDoc d fields) k = some v := by
  induction fields generalizing d with
  | nil => simp [getField] at h
  | cons kv rest ih =>
    obtain ⟨k0, v0⟩ := kv
    simp only [List.map_cons, List.nodup_cons] at hnd
    simp only [getField] at h
    by_cases h0 : k0 = k
    . subst h0
      simp only [if_true] at h
      obtain rfl : v0 = v := by simpa using h
      show getField (mergeDoc (setField d k0 v0) rest) k0 = some v0
      rw [getField_mergeDoc_of_none _ _ _
          (getField_eq_none_of_not_mem _ _ hnd.1)]
      exact getField_setField_self _ _ _
    . simp only [h0, if_false] at h
      exact ih _ hnd.2 h

lemma find_one_code_cons_of_match (d : Doc) (rest : List Doc) (c : String)
    (h : codeMatches d c = true) :
    find_one_code (d :: rest) c = some d := by
  simp [find_one_code, List.find?_cons, h]

lemma find_one_code_append_left (pre rest : List Doc) (c : String)
    (hpre : ∀ e ∈ pre, codeMatches e c = false) :
    find_one_code (pre ++ rest) c = find_one_code rest c := by
  have h : pre.find? (fun d => codeMatches d c) = none :=
    List.find?_eq_none.mpr (by intro x hx; simp [hpre x hx])
  simp [find_one_code, List.find?_append, h]

lemma update_first_code_append (pre post : List Doc) (d : Doc) (c : String)
    (fields : Doc) (hpre : ∀ e ∈ pre, codeMatches e c = false)
    (hd : codeMatches d c = true) :
    update_first_code (pre ++ d :: post) c fields =
      pre ++ mergeDoc d fields :: post := by
  induction pre with
  | nil => simp [update_first_code, hd]
  | cons e rest ih =>
    have he : codeMatches e c = false := hpre e (by simp)
    simp only [List.cons_append, update_first_code, he, Bool.false_eq_true,
      if_false, List.cons.injEq, true_and]
    exact ih fun x hx => hpre x (by simp [hx])

lemma codeMatches_of_getField (d : Doc) (c : String)
    (h : getField d ("code") = some (Val.str c)) : codeMatches d c = true := by
  simp [codeMatches, h]

/-! Helper lemmas about the sort-key order. -/

lemma keyLe_total (a b : SKey) : keyLe a b ∨ keyLe b a := by
  cases a <;> cases b <;> simp [keyLe, SKey.tag] <;>
    first
    | exact le_total _ _
    | omega

lemma keyLe_trans (a b c : SKey) (h1 : keyLe a b) (h2 : keyLe b c) :
    keyLe a c := by
  cases a <;> cases b <;> cases c <;>
    simp only [keyLe, SKey.tag] at h1 h2 ⊢ <;>
    first
    | exact le_trans h1 h2
    | omega
    | trivial

lemma docRel_total (ob ord : String) (a b : Doc) :
    docRel ob ord a b ∨ docRel ob ord b a := by
  unfold docRel
  split
  . exact keyLe_total _ _
  . exact (keyLe_total _ _).symm

lemma docRel_trans (ob ord : String) (a b c : Doc)
    (h1 : docRel ob ord a b) (h2 : docRel ob ord b c) : docRel ob ord a c := by
  by_cases hord : ord = "asc" <;>
    simp only [docRel, hord, if_true, if_false] at h1 h2 ⊢ <;>
    exact keyLe_trans _ _ _ (by assumption) (by assumption)

/-! Helper lemmas about year alignment. -/

lemma alignYears_length (lyi : ℚ) (n : ℕ) (l : List ℚ) :
    (alignYears lyi n l).length = l.length := by
  induction l generalizing n with
  | nil => simp [alignYears]
  | cons v rest ih => simp [alignYears, ih]

lemma mem_alignYears (lyi : ℚ) (n : ℕ) (l : List ℚ) (p : ℚ × ℚ) :
    p ∈ alignYears lyi n l ↔
      ∃ i, ∃ h : i < l.length,
        p = ((LAST_YEAR : ℚ) - (lyi - ((n + i : ℕ) : ℚ)), l.get ⟨i, h⟩) := by
  induction l generalizing n with
  | nil => simp [alignYears]
  | cons v rest ih =>
    simp only [alignYears, List.mem_cons, ih]
    constructor
    . rintro (rfl | ⟨i, hi, rfl⟩)
      . exact ⟨0, by simp, by simp⟩
      . refine ⟨i + 1, by simpa using hi, ?_⟩
        simp only [List.length_cons, List.get_cons_succ]
        congr 2
        push_cast
        ring
    . rintro ⟨i, hi, rfl⟩
      cases i with
      | zero => left; simp
      | succ j =>
        right
        refine ⟨j, by simpa using hi, ?_⟩
        simp only [List.length_cons, List.get_cons_succ]
        congr 2
        push_cast
        ring

/-! Helper lemma: a zero (or defaulted-to-zero absent) current price makes
`expected_rate` raise. -/

lemma expected_rate_none_of_cp_zero (d : Doc) (h : current_price d = 0) :
    expected_rate d = none := by
  rw [expected_rate, calc_expected_rate, h]
  cases calc_future_bps d FUTURE <;> simp

/-! Congruence lemmas: every valuation metric reads only fixed fields other
than `records`, so merging a new `records` value into a document leaves the
metrics unchanged. -/

lemma getNumD_congr (d d' : Doc) (k : String) (v : ℚ)
    (h : getField d' k = getField d k) : getNumD d' k v = getNumD d k v := by
  simp [getNumD, h]

lemma year_stat_congr (d d' : Doc) (stat : String) (ef : Bool)
    (h1 : getField d' stat = getField d stat)
    (h2 : getField d' ("last_year_index") = getField d ("last_year_index")) :
    year_stat d' stat ef = year_stat d stat ef := by
  rw [year_stat, year_stat, h1, h2]

lemma metrics_congr (d d' : Doc)
    (h : ∀ k, k ≠ "records" → getField d' k = getField d k) :
    current_price d' = current_price d ∧
    future_roe d' = future_roe d ∧
    calculable d' = calculable d ∧
    (∀ f, calc_future_bps d' f = calc_future_bps d f) ∧
    expected_rate d' = expected_rate d ∧
    (∀ t, mkDayRecord d' t = mkDayRecord d t) := by
  have hcp : current_price d' = current_price d :=
    getNumD_congr _ _ _ _ (h _ (by decide))
  have hys : ∀ ef, year_stat d' ("ROEs") ef = year_stat d ("ROEs") ef :=
    fun ef => year_stat_congr _ _ _ _ (h _ (by decide)) (h _ (by decide))
  have hlfy : last_four_years_roe d' = last_four_years_roe d := by
    rw [last_four_years_roe, last_four_years_roe, hys]
  have hdta : dividend_tax_adjust d' = dividend_tax_adjust d := by
    rw [dividend_tax_adjust, dividend_tax_adjust,
      getNumD_congr _ _ _ _ (h _ (by decide))]
  have hmr : mean_roe d' = mean_roe d := by
    rw [mean_roe, mean_roe, hlfy]
  have hfr : future_roe d' = future_roe d := by
    rw [future_roe, future_roe, hmr, hdta]
  have hbps : getNumD d' ("bps") 0 = getNumD d ("bps") 0 :=
    getNumD_congr _ _ _ _ (h _ (by decide))
  have hadj : getNumD d' ("adjusted_future_roe") 0 =
      getNumD d ("adjusted_future_roe") 0 :=
    getNumD_congr _ _ _ _ (h _ (by decide))
  have hcalc : calculable d' = calculable d := by
    rw [calculable, calculable, hbps, hadj, hfr]
  have hcfb : ∀ f, calc_future_bps d' f = calc_future_bps d f := by
    intro f
    rw [calc_future_bps, calc_future_bps, hcalc, hbps, hadj, hfr]
  have her : expected_rate d' = expected_rate d := by
    rw [expected_rate, expected_rate, calc_expected_rate, calc_expected_rate,
      hcp]
    simp only [hcfb]
  refine ⟨hcp, hfr, hcalc, hcfb, her, fun t => ?_⟩
  rw [mkDayRecord, mkDayRecord, hfr, her, hcp, hbps,
    getNumD_congr _ _ ("roe") _ (h _ (by decide)),
    getNumD_congr _ _ ("pbr") _ (h _ (by decide))]

/-! Concrete sample documents used to instantiate the claim theorems, and
their evaluated metrics. -/

/-- A well-formed starred stock document: four years of 10 percent ROE,
`bps = 10000`, price 10000.  Its `future_roe` is 10 and its expected rate is
positive. -/
def goodDoc : Doc :=
  [(("code"), Val.str ("GOOD")), (("title"), Val.str ("Good Co")),
   (("bps"), Val.num 10000), (("ROEs"), Val.numList [10, 10, 10, 10]),
   (("last_year_index"), Val.num 3), (("current_price"), Val.num 10000),
   (("starred"), Val.boolV true)]

/-- A document whose `current_price` is 0 (and which is not starred). -/
def badDoc : Doc :=
  [(("code"), Val.str ("BAD")), (("current_price"), Val.num 0)]

/-- The Mongo query `{'starred': True}` used by the starred list view,
as a predicate on documents. -/
def starredFind (d : Doc) : Bool :=
  match getField d ("starred") with
  | some (Val.boolV b) => b
  | _ => false

lemma goodDoc_bps : getNumD goodDoc ("bps") 0 = 10000 := by
  simp +decide only [getNumD, getField, goodDoc]

lemma goodDoc_adj : getNumD goodDoc ("adjusted_future_roe") 0 = 0 := by
  simp +decide only [getNumD, getField, goodDoc]

lemma goodDoc_dta : dividend_tax_adjust goodDoc = 0 := by
  simp +decide only [dividend_tax_adjust, getNumD, getField, goodDoc]
  norm_num

lemma goodDoc_lfy : last_four_years_roe goodDoc = some [10, 10, 10, 10] := by
  simp +decide only [last_four_years_roe, year_stat, getField, truthy, goodDoc]
  norm_num [alignYears, LAST_YEAR]

lemma goodDoc_fr : future_roe goodDoc = some 10 := by
  simp only [future_roe, mean_roe, goodDoc_lfy, Option.some_bind, goodDoc_dta]
  norm_num [qmean, List.cons_ne_nil]

lemma goodDoc_calculable : calculable goodDoc = some true := by
  simp only [calculable, goodDoc_bps, goodDoc_adj, goodDoc_fr, Option.some_bind]
  norm_num

lemma goodDoc_cfb : calc_future_bps goodDoc 10 = some 25937 := by
  simp only [calc_future_bps, goodDoc_calculable, Option.some_bind, goodDoc_bps,
    goodDoc_adj, goodDoc_fr]
  norm_num [truncQ, Int.floor_eq_iff]

lemma goodDoc_ip : invest_price goodDoc = some 6411 := by
  simp only [invest_price, FUTURE, goodDoc_cfb, Option.some_bind, TARGET_RATE]
  norm_num [truncQ, Int.floor_eq_iff]

lemma goodDoc_cp : current_price goodDoc = 10000 := by
  simp +decide only [current_price, getNumD, getField, goodDoc]

/-- The expected-rate value of `goodDoc`. -/
noncomputable def goodRate : ℝ := (((25937 : ℝ) / 10000) ^ ((1 : ℝ) / 10) - 1) * 100

lemma goodDoc_er : expected_rate goodDoc = some goodRate := by
  simp only [expected_rate, calc_expected_rate, FUTURE, goodDoc_cp, goodDoc_cfb,
    Option.some_bind, goodRate]
  norm_num

lemma goodRate_pos : 0 < goodRate := by
  have h1 : (1 : ℝ) < ((25937 : ℝ) / 10000) ^ ((1 : ℝ) / 10) := by
    rw [Real.one_lt_rpow_iff_of_pos (by norm_num)]
    left
    constructor <;> norm_num
  rw [goodRate]
  nlinarith

lemma goodDoc_key : attr_or_key_getter ("expected_rate") goodDoc =
    (expected_rate goodDoc).map SKey.num := by
  simp +decide [attr_or_key_getter, stockAttrs, List.lookup]

lemma goodDoc_key_title : attr_or_key_getter ("title") goodDoc =
    some (SKey.str ("Good Co")) := by
  simp +decide [attr_or_key_getter, stockAttrs, List.lookup, valKey, getField,
    goodDoc]

/-- Evaluating `all_stocks` on a store whose fetched set is one record with a
strictly-signed expected rate. -/
lemma all_stocks_single (store : List Doc) (ob ord : String)
    (find : Option (Doc → Bool)) (fb : Bool) (d : Doc) (x : ℝ)
    (hd : fetchDocs store find = [d])
    (h : expected_rate d = some x)
    (hx : if fb then 0 < x else x < 0)
    (hk : (attr_or_key_getter ob d).isSome = true) :
    all_stocks store ob ord find fb = some [d] := by
  have hp : (if fb then decide (0 < (expected_rate d).getD 0)
      else decide ((expected_rate d).getD 0 < 0)) = true := by
    simp only [h, Option.getD_some]
    cases fb
    . simp only [Bool.false_eq_true, if_false] at hx ⊢
      exact decide_eq_true hx
    . simp only [if_true] at hx ⊢
      exact decide_eq_true hx
  have hsurv : goodBadFilter [d] fb = [d] := by
    rw [goodBadFilter]
    simp only [List.filter_cons, List.filter_nil, hp, if_true]
  rw [all_stocks, hd, hsurv]
  rw [if_pos (by simp [h])]
  rw [if_pos (by simp [hk])]
  simp [List.insertionSort, List.orderedInsert]

lemma all_stocks_goodDoc :
    all_stocks [goodDoc] ("expected_rate") ("desc") none true
      = some [goodDoc] := by
  apply all_stocks_single _ _ _ _ _ _ goodRate
  . rfl
  . exact goodDoc_er
  . simpa using goodRate_pos
  . rw [goodDoc_key, goodDoc_er]
    rfl

lemma all_stocks_goodDoc_title :
    all_stocks [goodDoc] ("title") ("asc") none true = some [goodDoc] := by
  apply all_stocks_single _ _ _ _ _ _ goodRate
  . rfl
  . exact goodDoc_er
  . simpa using goodRate_pos
  . rw [goodDoc_key_title]
    rfl

/-! Claim theorems. -/

/-- C2, counterexample: for the record with `bps = 10000`, no adjusted
override, and `future_roe = 10`, the code's `invest_price` is
`int(25937 / 1.15**10) = 6411`, not 6412 as the claim asserts (the claimed
formula is right, its claimed value is off by one). -/
theorem invest_price_is_6411_not_6412 :
    future_bps goodDoc = some 25937 ∧ invest_price goodDoc = some 6411 ∧
    invest_price goodDoc ≠ some 6412 := by
  have h1 : future_bps goodDoc = some 25937 := by
    rw [future_bps, FUTURE]
    exact goodDoc_cfb
  exact ⟨h1, goodDoc_ip, by rw [goodDoc_ip]; simp⟩

/-- C2 (amended): for a record with `bps = 10000`, no adjusted_future_roe
override, and `future_roe = 10`, `calc_future_bps(10) = int(10000 * 1.10**10)
= 25937`; and its `invest_price = int(25937 / 1.15**10) = 6411`, using
TARGET_RATE = 15 and FUTURE = 10. -/
theorem calc_future_bps_invest_price_values (d : Doc)
    (hbps : getNumD d ("bps") 0 = 10000)
    (hadj : getNumD d ("adjusted_future_roe") 0 = 0)
    (hfr : future_roe d = some 10) :
    calc_future_bps d 10 = some 25937 ∧ future_bps d = some 25937 ∧
    invest_price d = some 6411 := by
  have hcalc : calculable d = some true := by
    simp only [calculable, hbps, hadj, hfr, Option.some_bind]
    norm_num
  have hcfb : calc_future_bps d 10 = some 25937 := by
    simp only [calc_future_bps, hcalc, Option.some_bind, hbps, hadj, hfr]
    norm_num [truncQ, Int.floor_eq_iff]
  have hfb : future_bps d = some 25937 := by
    rw [future_bps, FUTURE]
    exact hcfb
  refine ⟨hcfb, hfb, ?_⟩
  simp only [invest_price, FUTURE, hcfb, Option.some_bind, TARGET_RATE]
  norm_num [truncQ, Int.floor_eq_iff]

/-- C2, witness: the amended claim evaluated at the concrete sample record. -/
theorem calc_future_bps_invest_price_values_witness :
    calc_future_bps goodDoc 10 = some 25937 ∧
    future_bps goodDoc = some 25937 ∧ invest_price goodDoc = some 6411 :=
  calc_future_bps_invest_price_values goodDoc goodDoc_bps goodDoc_adj goodDoc_fr

/-- C9: `calc_expected_rate` substitutes `current_price` when the supplied
price is absent or zero, returns
`((price_fn(future) / price) ** (1/future) - 1) * 100` for a non-zero price,
and raises (returns `none`) when the effective price is zero — in particular
when both the supplied price and `current_price` are 0. -/
theorem calc_expected_rate_spec (d : Doc) (f : ℕ → Option ℤ) (future : ℕ) :
    (calc_expected_rate d f future (some 0) =
      calc_expected_rate d f future none) ∧
    (∀ p : ℚ, p ≠ 0 → ∀ b : ℤ, f future = some b → future ≠ 0 →
      calc_expected_rate d f future (some p) =
        some ((((b : ℝ) / ((p : ℚ) : ℝ)) ^ ((1 : ℝ) / (future : ℝ)) - 1) * 100)) ∧
    (current_price d = 0 →
      calc_expected_rate d f future none = none ∧
      calc_expected_rate d f future (some 0) = none) := by
  refine ⟨by simp [calc_expected_rate], ?_, ?_⟩
  . intro p hp b hb hf
    simp [calc_expected_rate, hp, hb, hf]
  . intro hcp
    constructor <;>
      . rw [calc_expected_rate]
        cases f future <;> simp [hcp]

/-- C9, witness: the formula branch evaluated at a concrete record-free price
function, horizon 10 and price 2. -/
theorem calc_expected_rate_spec_witness :
    calc_expected_rate [] (fun _ => some 32) 10 (some 2) =
      some (((((32 : ℤ) : ℝ) / ((2 : ℚ) : ℝ)) ^ ((1 : ℝ) / ((10 : ℕ) : ℝ)) - 1) * 100) := by
  exact (calc_expected_rate_spec [] (fun _ => some 32) 10).2.1 2 (by norm_num)
    32 rfl (by norm_num)

/-- C5, counterexample: looking up a code with no matching record does NOT
fail; `Stock(None)` constructs an empty model instance (UserDict with no
data), whose own field accesses then come up empty. -/
theorem stock_by_code_no_match_returns_empty :
    stock_by_code [goodDoc] ("MISSING") = ([] : Doc) ∧
    getField (stock_by_code [goodDoc] ("MISSING")) ("code") = none := by
  constructor <;> rfl

/-- C5 (amended): `stock_by_code` wraps the first (by the `code`-uniqueness
invariant, unique) record whose code equals the argument; when no record
matches it returns an EMPTY model instance — construction succeeds and the
failure only surfaces on later field access. -/
theorem stock_by_code_spec (store : List Doc) (code : String) :
    (∀ d, find_one_code store code = some d →
      stock_by_code store code = d ∧ codeMatches d code = true) ∧
    (find_one_code store code = none →
      stock_by_code store code = ([] : Doc)) := by
  constructor
  . intro d hd
    refine ⟨by simp [stock_by_code, hd], ?_⟩
    rw [find_one_code] at hd
    exact List.find?_some (p := fun e => codeMatches e code) hd
  . intro h
    simp [stock_by_code, h]

/-- C5, witness: a matching lookup returns the stored record; an empty store
yields the empty instance. -/
theorem stock_by_code_spec_witness :
    stock_by_code [goodDoc] ("GOOD") = goodDoc ∧
    stock_by_code ([] : List Doc) ("GOOD") = ([] : Doc) := by
  constructor
  . exact ((stock_by_code_spec [goodDoc] ("GOOD")).1 goodDoc (by rfl)).1
  . exact (stock_by_code_spec ([] : List Doc) ("GOOD")).2 rfl

/-- C7: the flag-toggle route sets the field named by `status` to
`on == 'on'`; setting `owned` true also clears `starred` and setting
`starred` true also clears `owned`; consequently after any toggle of `owned`
or `starred` the two flags are never both true, and any toggle preserves the
mutual-exclusivity invariant when it already held. -/
theorem stock_status_toggle_spec (stock : Doc) (status onArg : String) :
    getField (stock_status_update stock status onArg) status =
      some (Val.boolV (onArg == ("on"))) ∧
    (status = "owned" → onArg = "on" →
      getField (stock_status_update stock status onArg) ("starred") =
        some (Val.boolV false)) ∧
    (status = "starred" → onArg = "on" →
      getField (stock_status_update stock status onArg) ("owned") =
        some (Val.boolV false)) ∧
    ((status = "owned" ∨ status = "starred" ∨
        ¬ (getBoolD stock ("owned") false = true ∧
           getBoolD stock ("starred") false = true)) →
      ¬ (getBoolD (stock_status_update stock status onArg) ("owned") false = true ∧
         getBoolD (stock_status_update stock status onArg) ("starred") false = true)) := by
  by_cases ho : status = "owned" <;> by_cases hs : status = "starred" <;>
    by_cases hon : onArg = "on"
  all_goals
    first
    | (exact absurd (ho.symm.trans hs) (by decide))
    | (subst_vars
       refine ⟨?_, ?_, ?_, ?_⟩ <;>
         simp_all [stock_status_update, getBoolD, getField_setField_self,
           getField_setField_ne])
    | (refine ⟨?_, ?_, ?_, ?_⟩ <;>
        simp_all [stock_status_update, getBoolD, getField_setField_self,
          getField_setField_ne])

/-- C7, witness: toggling `owned` on for a record that is currently starred
sets `owned` and clears `starred`. -/
theorem stock_status_toggle_spec_witness :
    getField (stock_status_update [(("starred"), Val.boolV true)] ("owned") ("on"))
        ("owned") = some (Val.boolV (("on" : String) == ("on"))) ∧
    getField (stock_status_update [(("starred"), Val.boolV true)] ("owned") ("on"))
        ("starred") = some (Val.boolV false) := by
  have H := stock_status_toggle_spec [(("starred"), Val.boolV true)] ("owned") ("on")
  exact ⟨H.1, H.2.1 rfl rfl⟩

/-- C4 (code bug in the claimed behaviour): the `/stocks/fill` route calls
`s.fill_snowball_stat()` on each stock of the default positive listing, but
class Stock defines no attribute of that name — its snapshot operation is
`save_record` — so on any non-empty listing the route raises AttributeError
instead of snapshotting and redirecting. -/
theorem stocks_fill_attribute_error :
    stockAttrs.lookup ("fill_snowball_stat") = none ∧
    (stockAttrs.map Prod.fst).contains ("save_record") = true ∧
    all_stocks [goodDoc] ("title") ("asc") none true = some [goodDoc] ∧
    stocks_fill_snowball_stats [goodDoc] = none := by
  refine ⟨?_, ?_, all_stocks_goodDoc_title, ?_⟩
  . simp +decide [stockAttrs, List.lookup]
  . simp +decide [stockAttrs]
  . rw [stocks_fill_snowball_stats, all_stocks_goodDoc_title]
    simp +decide [stockAttrs, List.lookup]

/-- C10, counterexample to the claim as stated: a record with
`current_price = 0` sits in the collection, yet a call whose `find` filter
excludes it (here the starred list) returns a list normally — not every call
raises. -/
theorem all_stocks_zero_price_excluded_by_find :
    getField badDoc ("current_price") = some (Val.num 0) ∧
    badDoc ∈ [badDoc, goodDoc] ∧
    all_stocks [badDoc, goodDoc] ("expected_rate") ("desc") (some starredFind)
        true = some [goodDoc] := by
  refine ⟨rfl, by simp, ?_⟩
  apply all_stocks_single _ _ _ _ _ _ goodRate
  . rfl
  . exact goodDoc_er
  . simpa using goodRate_pos
  . rw [goodDoc_key, goodDoc_er]
    rfl

/-- C10 (amended): the `current_price` accessor defaults to 0 when the field
is absent, and `all_stocks` evaluates `expected_rate` on every FETCHED record
while filtering; hence whenever any record in the fetched set (in particular,
any record at all when no `find` filter is given) has `current_price` absent
or 0, the call raises a division-by-zero error and returns no list.  A `find`
filter that excludes the zero-price record avoids the failure. -/
theorem all_stocks_zero_price_raises (store : List Doc) (ob ord : String)
    (find : Option (Doc → Bool)) (fb : Bool) (d : Doc)
    (hd : d ∈ fetchDocs store find)
    (hp : current_price d = 0) :
    all_stocks store ob ord find fb = none ∧
    (∀ e : Doc, getField e ("current_price") = none → current_price e = 0) := by
  refine ⟨?_, fun e he => by simp [current_price, getNumD, he]⟩
  have h1 : ((fetchDocs store find).all fun s => (expected_rate s).isSome)
      = false := by
    rw [List.all_eq_false]
    exact ⟨d, hd, by rw [expected_rate_none_of_cp_zero d hp]; simp⟩
  rw [all_stocks]
  simp only [h1, Bool.false_eq_true, if_false]

/-- C10, witness: the default unfiltered call on a store containing the
zero-price record fails. -/
theorem all_stocks_zero_price_raises_witness :
    all_stocks [badDoc] ("expected_rate") ("desc") none true = none :=
  (all_stocks_zero_price_raises [badDoc] ("expected_rate") ("desc") none true
    badDoc (by simp [fetchDocs]) rfl).1

/-- C3: `year_stat(stat, exclude_future)` returns the single pair (0, 0)
when the named series is absent or empty; otherwise it requires
`last_year_index` (absence is a fatal precondition failure, `none`), and
returns exactly the pairs `(LAST_YEAR - (last_year_index - i), value_i)` for
the indices `i` of the series, keeping only pairs whose computed year is
`<= LAST_YEAR` when `exclude_future` is true (and all of them, in full
length, when it is false). -/
theorem year_stat_spec (d : Doc) (stat : String) (ef : Bool) :
    (getField d stat = none → year_stat d stat ef = some [(0, 0)]) ∧
    (getField d stat = some (Val.numList []) →
      year_stat d stat ef = some [(0, 0)]) ∧
    (∀ l, getField d stat = some (Val.numList l) → l ≠ [] →
      getField d ("last_year_index") = none → year_stat d stat ef = none) ∧
    (∀ l lyi, getField d stat = some (Val.numList l) → l ≠ [] →
      getField d ("last_year_index") = some (Val.num lyi) →
      ∃ ys, year_stat d stat ef = some ys ∧
        (∀ p, p ∈ ys ↔ ((∃ i, ∃ hi : i < l.length,
            p = ((LAST_YEAR : ℚ) - (lyi - (i : ℚ)), l.get ⟨i, hi⟩)) ∧
          (ef = true → p.1 ≤ (LAST_YEAR : ℚ)))) ∧
        (ef = false → ys.length = l.length)) := by
  refine ⟨fun h => by simp [year_stat, h], fun h => by simp [year_stat, h, truthy],
    fun l hl hne hlyi => ?_, fun l lyi hl hne hlyi => ?_⟩
  . rw [year_stat, hl, hlyi]
    simp [truthy, hne]
  . rw [year_stat, hl, hlyi]
    have ht : truthy (Val.numList l) = true := by simp [truthy, hne]
    simp only [ht, Bool.not_true, Bool.false_eq_true, if_false]
    refine ⟨_, rfl, fun p => ?_, fun hef => ?_⟩
    . rw [List.mem_filter, mem_alignYears]
      constructor
      . rintro ⟨⟨i, hi, rfl⟩, hkeep⟩
        refine ⟨⟨i, hi, by push_cast; ring_nf⟩, fun h => ?_⟩
        rw [h] at hkeep
        simpa using hkeep
      . rintro ⟨⟨i, hi, rfl⟩, hkeep⟩
        refine ⟨⟨i, hi, by push_cast; ring_nf⟩, ?_⟩
        cases ef
        . simp
        . simpa using hkeep rfl
    . subst hef
      simp only [Bool.not_false, Bool.true_or, List.filter_true]
      exact alignYears_length lyi 0 l

/-- The concrete series document used to witness C3: a three-entry series
whose last historical index is 1, so index 2 is future-dated. -/
def seriesDoc : Doc :=
  [(("ROEs"), Val.numList [1, 2, 3]), (("last_year_index"), Val.num 1)]

/-- C3, witness: with `exclude_future`, index 0 maps to year 2024 and is
kept, while the future-dated pair (2026, 3) is dropped. -/
theorem year_stat_spec_witness :
    ∃ ys, year_stat seriesDoc ("ROEs") true = some ys ∧
      ((2024 : ℚ), (1 : ℚ)) ∈ ys ∧ (((2026 : ℚ), (3 : ℚ))) ∉ ys := by
  obtain ⟨ys, hys, hmem, _⟩ :=
    (year_stat_spec seriesDoc ("ROEs") true).2.2.2 [1, 2, 3] 1 rfl
      (by simp) rfl
  refine ⟨ys, hys, ?_, ?_⟩
  . rw [hmem]
    refine ⟨⟨0, by norm_num, ?_⟩, fun _ => by norm_num [LAST_YEAR]⟩
    norm_num [LAST_YEAR]
  . rw [hmem]
    rintro ⟨-, hle⟩
    have := hle rfl
    norm_num [LAST_YEAR] at this

/-- C1: whenever `all_stocks` returns a list, that list holds exactly the
fetched records with strictly positive expected rate (`filter_bad = true`),
respectively strictly negative (`filter_bad = false`) — a zero-rate record
appears in neither — and it is sorted by the resolved key, descending unless
`ordering == 'asc'`; the key resolver tries the named computed model
attribute first and falls back to the raw field value, defaulting to 0 when
the field is absent. -/
theorem all_stocks_spec (store : List Doc) (ob ord : String)
    (find : Option (Doc → Bool)) (fb : Bool) (res : List Doc)
    (h : all_stocks store ob ord find fb = some res) :
    (∀ d, d ∈ res ↔
      (d ∈ fetchDocs store find ∧
        ∃ x, expected_rate d = some x ∧ (if fb then 0 < x else x < 0))) ∧
    (∀ d, expected_rate d = some 0 → d ∉ res) ∧
    List.Sorted (docRel ob ord) res ∧
    (∀ name e, stockAttrs.lookup name = none → getField e name = none →
      attr_or_key_getter name e = some (SKey.num 0)) ∧
    (∀ name e g, stockAttrs.lookup name = some g →
      attr_or_key_getter name e = g e) := by
  rw [all_stocks] at h
  by_cases h1 : ((fetchDocs store find).all fun s => (expected_rate s).isSome)
      = true
  rotate_left
  . rw [if_neg h1] at h
    exact absurd h (by simp)
  rw [if_pos h1] at h
  by_cases h2 : ((goodBadFilter (fetchDocs store find) fb).all
      fun s => (attr_or_key_getter ob s).isSome) = true
  rotate_left
  . rw [if_neg h2] at h
    exact absurd h (by simp)
  rw [if_pos h2] at h
  have hres : res = List.insertionSort (docRel ob ord)
      (goodBadFilter (fetchDocs store find) fb) :=
    (Option.some_inj.mp h).symm
  have hmem : ∀ d, d ∈ res ↔ (d ∈ fetchDocs store find ∧
      ∃ x, expected_rate d = some x ∧ (if fb then 0 < x else x < 0)) := by
    intro d
    rw [hres, List.mem_insertionSort, goodBadFilter, List.mem_filter]
    constructor
    . rintro ⟨hd, hpred⟩
      refine ⟨hd, ?_⟩
      have hsome : (expected_rate d).isSome = true :=
        List.all_eq_true.mp h1 d hd
      obtain ⟨x, hx⟩ := Option.isSome_iff_exists.mp hsome
      refine ⟨x, hx, ?_⟩
      rw [hx] at hpred
      cases fb
      . simpa using hpred
      . simpa using hpred
    . rintro ⟨hd, x, hx, hsign⟩
      refine ⟨hd, ?_⟩
      rw [hx]
      cases fb
      . simpa using hsign
      . simpa using hsign
  refine ⟨hmem, ?_, ?_, ?_, ?_⟩
  . intro d hzero hd
    obtain ⟨-, x, hx, hsign⟩ := (hmem d).mp hd
    rw [hzero] at hx
    obtain rfl : (0 : ℝ) = x := by simpa using hx
    cases fb
    . simpa using hsign
    . simpa using hsign
  . rw [hres]
    haveI : IsTotal Doc (docRel ob ord) := ⟨docRel_total ob ord⟩
    haveI : IsTrans Doc (docRel ob ord) := ⟨docRel_trans ob ord⟩
    exact List.sorted_insertionSort _ _
  . intro name e hl hg
    simp [attr_or_key_getter, hl, hg, valKey]
  . intro name e g hl
    simp [attr_or_key_getter, hl]

/-- C1, witness: the positive-rate sample record survives the default good
filter, its expected rate is strictly positive, and the singleton result is
sorted. -/
theorem all_stocks_spec_witness :
    goodDoc ∈ ([goodDoc] : List Doc) ∧
    (∃ x, expected_rate goodDoc = some x ∧ 0 < x) ∧
    List.Sorted (docRel ("expected_rate") ("desc")) [goodDoc] := by
  have H := all_stocks_spec [goodDoc] ("expected_rate") ("desc") none true
    [goodDoc] all_stocks_goodDoc
  refine ⟨by simp, ?_, H.2.2.1⟩
  obtain ⟨-, x, hx, hsign⟩ := (H.1 goodDoc).mp (by simp)
  exact ⟨x, hx, by simpa using hsign⟩

/-- C6: `save_stock` on a field mapping containing `code` merges only the
given fields into the (first, by uniqueness the only) existing record with
that code — every field not present in the input is left unchanged and every
given field takes the given value — inserts a brand-new record when no record
with that code exists, and returns the record freshly reloaded by code after
the write.  The no-duplicate-keys hypothesis is automatic for inputs coming
from Python dicts. -/
theorem save_stock_spec (store : List Doc) (stock : Doc) (c : String)
    (hc : getField stock ("code") = some (Val.str c))
    (hnd : (stock.map Prod.fst).Nodup) :
    ∃ store' ret, save_stock store stock = some (store', ret) ∧
      ret = stock_by_code store' c ∧
      (find_one_code store c = none →
        store' = store ++ [stock] ∧ ret = stock) ∧
      (∀ pre d post, store = pre ++ d :: post →
        (∀ e ∈ pre, codeMatches e c = false) → codeMatches d c = true →
        store' = pre ++ mergeDoc d stock :: post ∧
        ret = mergeDoc d stock ∧
        (∀ k, getField stock k = none →
          getField (mergeDoc d stock) k = getField d k) ∧
        (∀ k v, getField stock k = some v →
          getField (mergeDoc d stock) k = some v)) := by
  rw [save_stock, hc]
  refine ⟨_, _, rfl, rfl, ?_, ?_⟩
  . intro hnone
    rw [hnone]
    refine ⟨rfl, ?_⟩
    show stock_by_code (store ++ [stock]) c = stock
    have hpre : ∀ e ∈ store, codeMatches e c = false := by
      intro e he
      rw [find_one_code] at hnone
      simpa using List.find?_eq_none.mp hnone e he
    rw [stock_by_code, find_one_code_append_left _ _ _ hpre,
      find_one_code_cons_of_match _ _ _ (codeMatches_of_getField _ _ hc)]
    rfl
  . intro pre d post hdec hpre hd
    subst hdec
    have hfind : find_one_code (pre ++ d :: post) c = some d := by
      rw [find_one_code_append_left _ _ _ hpre,
        find_one_code_cons_of_match _ _ _ hd]
    rw [hfind]
    have hupd : update_first_code (pre ++ d :: post) c stock =
        pre ++ mergeDoc d stock :: post :=
      update_first_code_append _ _ _ _ _ hpre hd
    have hmergecode : getField (mergeDoc d stock) ("code") =
        some (Val.str c) :=
      getField_mergeDoc_of_some _ _ _ _ hnd hc
    have hret : stock_by_code (pre ++ mergeDoc d stock :: post) c =
        mergeDoc d stock := by
      rw [stock_by_code, find_one_code_append_left _ _ _ hpre,
        find_one_code_cons_of_match _ _ _
          (codeMatches_of_getField _ _ hmergecode)]
      rfl
    rw [hupd]
    exact ⟨rfl, hret, fun k hk => getField_mergeDoc_of_none _ _ _ hk,
      fun k v hv => getField_mergeDoc_of_some _ _ _ _ hnd hv⟩

/-- C6, witness: merging `{code, my_price}` into the stored sample record
updates `my_price`, leaves `title` (not present in the input) unchanged, and
returns the reloaded merged record. -/
theorem save_stock_spec_witness :
    ∃ store' ret,
      save_stock [goodDoc] [(("code"), Val.str ("GOOD")),
          (("my_price"), Val.num 5000)] = some (store', ret) ∧
      ret = mergeDoc goodDoc [(("code"), Val.str ("GOOD")),
          (("my_price"), Val.num 5000)] ∧
      getField ret ("title") = some (Val.str ("Good Co")) ∧
      getField ret ("my_price") = some (Val.num 5000) := by
  obtain ⟨store', ret, hsave, hrel, -, hupd⟩ :=
    save_stock_spec [goodDoc]
      [(("code"), Val.str ("GOOD")), (("my_price"), Val.num 5000)] ("GOOD")
      rfl (by simp)
  obtain ⟨hstore', hret, hframe, hgiven⟩ :=
    hupd [] goodDoc [] rfl (by simp) rfl
  refine ⟨store', ret, hsave, hret, ?_, ?_⟩
  . rw [hret, hframe ("title") rfl]
    rfl
  . rw [hret, hgiven ("my_price") (Val.num 5000) rfl]

/-! Helper lemmas for the daily-snapshot claim. -/

lemma mkDayRecord_date (d : Doc) (t : ℤ) (snap : DayRecord)
    (h : mkDayRecord d t = some snap) : snap.date = t := by
  rw [mkDayRecord] at h
  cases hfr : future_roe d with
  | none => rw [hfr] at h; simp at h
  | some fr =>
    rw [hfr] at h
    cases her : expected_rate d with
    | none => rw [her] at h; simp at h
    | some er =>
      rw [her] at h
      simp only [Option.pure_def, Option.bind_eq_bind, Option.some_bind] at h
      obtain rfl := Option.some_inj.mp h
      rfl

lemma save_stock_decomposed (pre post : List Doc) (d : Doc) (c : String)
    (fields : Doc)
    (hpre : ∀ e ∈ pre, codeMatches e c = false) (hd : codeMatches d c = true)
    (hfc : getField fields ("code") = some (Val.str c))
    (hnd : (fields.map Prod.fst).Nodup) :
    save_stock (pre ++ d :: post) fields =
      some (pre ++ mergeDoc d fields :: post, mergeDoc d fields) := by
  have hmc : getField (mergeDoc d fields) ("code") = some (Val.str c) :=
    getField_mergeDoc_of_some _ _ _ _ hnd hfc
  have hret : stock_by_code (pre ++ mergeDoc d fields :: post) c =
      mergeDoc d fields := by
    rw [stock_by_code, find_one_code_append_left _ _ _ hpre,
      find_one_code_cons_of_match _ _ _ (codeMatches_of_getField _ _ hmc)]
    rfl
  simp only [save_stock, hfc, find_one_code_append_left _ _ _ hpre,
    find_one_code_cons_of_match _ _ _ hd,
    update_first_code_append _ _ _ _ _ hpre hd, hret]

/-- The `{code, records}` dict persisted by `save_record`. -/
def recUpdate (c : String) (rs : List DayRecord) : Doc :=
  [(("code"), Val.str c), (("records"), Val.recList rs)]

lemma getField_recUpdate_code (c : String) (rs : List DayRecord) :
    getField (recUpdate c rs) ("code") = some (Val.str c) := rfl

lemma getField_recUpdate_records (c : String) (rs : List DayRecord) :
    getField (recUpdate c rs) ("records") = some (Val.recList rs) := rfl

lemma getField_recUpdate_other (c : String) (rs : List DayRecord) (k : String)
    (h1 : k ≠ "code") (h2 : k ≠ "records") :
    getField (recUpdate c rs) k = none := by
  simp [recUpdate, getField, Ne.symm h1, Ne.symm h2]

lemma recUpdate_nodup (c : String) (rs : List DayRecord) :
    ((recUpdate c rs).map Prod.fst).Nodup := by
  simp [recUpdate]

/-- Merging a `{code, records}` update whose code value agrees with the
document changes only the `records` field. -/
lemma getField_merge_recUpdate (d : Doc) (c : String) (rs : List DayRecord)
    (hc : getField d ("code") = some (Val.str c)) :
    (∀ k, k ≠ "records" →
      getField (mergeDoc d (recUpdate c rs)) k = getField d k) ∧
    getField (mergeDoc d (recUpdate c rs)) ("records") =
      some (Val.recList rs) := by
  constructor
  . intro k hk
    by_cases hcode : k = "code"
    . subst hcode
      rw [getField_mergeDoc_of_some _ _ _ _ (recUpdate_nodup c rs)
        (getField_recUpdate_code c rs), hc]
    . rw [getField_mergeDoc_of_none _ _ _
        (getField_recUpdate_other c rs k hcode hk)]
  . exact getField_mergeDoc_of_some _ _ _ _ (recUpdate_nodup c rs)
      (getField_recUpdate_records c rs)

/-- Evaluating one starred `save_record` call against a decomposed store. -/
lemma save_record_starred_eq (pre post : List Doc) (d : Doc) (c : String)
    (today : ℤ)
    (hc : getField d ("code") = some (Val.str c))
    (hstar : getField d ("starred") = some (Val.boolV true))
    (hpre : ∀ e ∈ pre, codeMatches e c = false)
    (rs : List DayRecord) (hrs : getRecListD d ("records") [] = rs)
    (snap : DayRecord) (hsnap : mkDayRecord d today = some snap)
    (rs' : List DayRecord)
    (hrs' : (match rs.getLast? with
      | some last => if last.date = today then rs.dropLast ++ [snap]
        else rs ++ [snap]
      | none => rs ++ [snap]) = rs') :
    save_record (pre ++ d :: post) d today =
      some (pre ++ mergeDoc d (recUpdate c rs') :: post) := by
  rw [save_record, hstar]
  simp only [Option.getD_some, truthy, not_true, false_and, if_false, hsnap,
    Option.pure_def, Option.bind_eq_bind, Option.some_bind, hrs, hrs', hc]
  show ((save_stock (pre ++ d :: post) (recUpdate c rs')).bind
      fun res => some res.1) = _
  rw [save_stock_decomposed pre post d c (recUpdate c rs') hpre
    (codeMatches_of_getField _ _ hc) (getField_recUpdate_code c rs')
    (recUpdate_nodup c rs')]
  rfl

lemma stock_by_code_decomposed (pre post : List Doc) (d : Doc) (c : String)
    (hpre : ∀ e ∈ pre, codeMatches e c = false) (hd : codeMatches d c = true) :
    stock_by_code (pre ++ d :: post) c = d := by
  rw [stock_by_code, find_one_code_append_left _ _ _ hpre,
    find_one_code_cons_of_match _ _ _ hd]
  rfl

/-- C8: for a starred record stored with no snapshot dated today, calling
`save_record` twice on the same calendar day leaves exactly one entry in
`records` dated today — the first call appends today's snapshot, the second
call (on the freshly reloaded record) replaces it in place with its own
snapshot of the same (unchanged) state; same-day entries are never
duplicated. -/
theorem save_record_same_day_idempotent
    (pre post : List Doc) (d : Doc) (c : String) (today : ℤ)
    (hc : getField d ("code") = some (Val.str c))
    (hstar : getField d ("starred") = some (Val.boolV true))
    (hpre : ∀ e ∈ pre, codeMatches e c = false)
    (rs0 : List DayRecord)
    (hrs : getField d ("records") = some (Val.recList rs0) ∨
      (getField d ("records") = none ∧ rs0 = []))
    (hold : ∀ r ∈ rs0, r.date ≠ today)
    (snap : DayRecord) (hsnap : mkDayRecord d today = some snap) :
    ∃ store₁ store₂,
      save_record (pre ++ d :: post) d today = some store₁ ∧
      mkDayRecord (stock_by_code store₁ c) today = some snap ∧
      save_record store₁ (stock_by_code store₁ c) today = some store₂ ∧
      getField (stock_by_code store₂ c) ("records") =
        some (Val.recList (rs0 ++ [snap])) ∧
      ((rs0 ++ [snap]).filter fun r => decide (r.date = today)).length = 1 := by
  have hsnapdate : snap.date = today := mkDayRecord_date d today snap hsnap
  have hrs1 : getRecListD d ("records") [] = rs0 := by
    rcases hrs with h | ⟨h, rfl⟩ <;> simp [getRecListD, h]
  have hrs'1 : (match rs0.getLast? with
      | some last => if last.date = today then rs0.dropLast ++ [snap]
        else rs0 ++ [snap]
      | none => rs0 ++ [snap]) = rs0 ++ [snap] := by
    cases hlast : rs0.getLast? with
    | none => rfl
    | some last =>
      have hmem : last ∈ rs0 := List.mem_of_mem_getLast? hlast
      simp only [if_neg (hold last hmem)]
  set d₁ : Doc := mergeDoc d (recUpdate c (rs0 ++ [snap])) with hd₁
  have hsave1 : save_record (pre ++ d :: post) d today =
      some (pre ++ d₁ :: post) :=
    save_record_starred_eq pre post d c today hc hstar hpre rs0 hrs1 snap
      hsnap (rs0 ++ [snap]) hrs'1
  obtain ⟨hcongr, hd1records⟩ :=
    getField_merge_recUpdate d c (rs0 ++ [snap]) hc
  have hd1code : getField d₁ ("code") = some (Val.str c) := by
    rw [hd₁, hcongr ("code") (by decide), hc]
  have hd1star : getField d₁ ("starred") = some (Val.boolV true) := by
    rw [hd₁, hcongr ("starred") (by decide), hstar]
  obtain ⟨-, -, -, -, -, hmk⟩ := metrics_congr d d₁ (by
    intro k hk
    rw [hd₁]
    exact hcongr k hk)
  have hsnap1 : mkDayRecord d₁ today = some snap := by
    rw [hmk today, hsnap]
  have hfetch1 : stock_by_code (pre ++ d₁ :: post) c = d₁ :=
    stock_by_code_decomposed pre post d₁ c hpre
      (codeMatches_of_getField _ _ hd1code)
  have hrs2 : getRecListD d₁ ("records") [] = rs0 ++ [snap] := by
    rw [hd₁]
    simp [getRecListD, hd1records]
  have hrs'2 : (match (rs0 ++ [snap]).getLast? with
      | some last => if last.date = today then (rs0 ++ [snap]).dropLast ++ [snap]
        else (rs0 ++ [snap]) ++ [snap]
      | none => (rs0 ++ [snap]) ++ [snap]) = rs0 ++ [snap] := by
    rw [List.getLast?_concat]
    simp only [hsnapdate, if_true, List.dropLast_concat]
  have hsave2 : save_record (pre ++ d₁ :: post) d₁ today =
      some (pre ++ mergeDoc d₁ (recUpdate c (rs0 ++ [snap])) :: post) :=
    save_record_starred_eq pre post d₁ c today hd1code hd1star hpre
      (rs0 ++ [snap]) hrs2 snap hsnap1 (rs0 ++ [snap]) hrs'2
  set d₂ : Doc := mergeDoc d₁ (recUpdate c (rs0 ++ [snap])) with hd₂
  obtain ⟨hcongr2, hd2records⟩ :=
    getField_merge_recUpdate d₁ c (rs0 ++ [snap]) hd1code
  have hd2code : getField d₂ ("code") = some (Val.str c) := by
    rw [hd₂, hcongr2 ("code") (by decide), hd1code]
  have hfetch2 : stock_by_code (pre ++ d₂ :: post) c = d₂ :=
    stock_by_code_decomposed pre post d₂ c hpre
      (codeMatches_of_getField _ _ hd2code)
  refine ⟨pre ++ d₁ :: post, pre ++ d₂ :: post, hsave1, ?_, ?_, ?_, ?_⟩
  . rw [hfetch1]
    exact hsnap1
  . rw [hfetch1]
    exact hsave2
  . rw [hfetch2, hd₂]
    exact hd2records
  . rw [List.filter_append]
    have h1 : rs0.filter (fun r => decide (r.date = today)) = [] := by
      rw [List.filter_eq_nil_iff]
      intro r hr
      simp [hold r hr]
    simp [h1, List.filter, hsnapdate]

/-- The concrete snapshot that `save_record` builds for the sample record at
day 0. -/
noncomputable def goodSnap : DayRecord :=
  { date := 0, buy := 0, sell := 0, bps := 10000, current_price := 10000,
    future_roe := 10, roe := 0, pbr := 0, expected_rate := goodRate }

lemma mkDayRecord_goodDoc : mkDayRecord goodDoc 0 = some goodSnap := by
  rw [mkDayRecord, goodDoc_fr, goodDoc_er]
  simp only [Option.pure_def, Option.bind_eq_bind, Option.some_bind]
  rw [goodSnap, goodDoc_cp, goodDoc_bps]
  simp +decide [getNumD, getField, goodDoc]

/-- C8, witness: the double same-day snapshot on the stored sample record
leaves exactly one entry dated day 0. -/
theorem save_record_same_day_idempotent_witness :
    ∃ store₁ store₂,
      save_record [goodDoc] goodDoc 0 = some store₁ ∧
      mkDayRecord (stock_by_code store₁ ("GOOD")) 0 = some goodSnap ∧
      save_record store₁ (stock_by_code store₁ ("GOOD")) 0 = some store₂ ∧
      getField (stock_by_code store₂ ("GOOD")) ("records") =
        some (Val.recList [goodSnap]) ∧
      (([goodSnap] : List DayRecord).filter
        fun r => decide (r.date = 0)).length = 1 := by
  have H := save_record_same_day_idempotent [] [] goodDoc ("GOOD") 0 rfl rfl
    (by simp) [] (Or.inr ⟨rfl, rfl⟩) (by simp) goodSnap mkDayRecord_goodDoc
  simpa using H

end Snowball
